import Mathlib

/-!
Verification of the section parser and extraction engine of the `j` journal CLI
(repository behzade/j.nvim).

The CLI entry point `src/j/main.ts` is embedded shallowly below: its pure
helpers (`parseSectionListArg`, the mode-selection chain) are translated
directly, and its effectful body (`main`) is modelled as a function from an
abstract environment of collaborator actions to a trace of observable events
plus an `Except` result, mirroring the Effect pipeline of the source.  The
section splitter and extractor live in `src/j/actions.ts`, which is not part of
the sources provided; those two components are modelled from the spec
(sections 4.1 and 4.2) and are marked as such in their doc comments.

Strings are processed over their character lists so that every definition
evaluates inside the kernel.
-/

namespace J

/-- The JavaScript `\s` class (also the ECMAScript `TrimString` set): ASCII
whitespace (space, tab, line feed, carriage return, vertical tab, form
feed), the line terminators U+2028/U+2029, and the Unicode space characters U+00A0, U+1680, U+2000-U+200A, U+202F, U+205F, U+3000 and U+FEFF. -/
def isWs (c : Char) : Bool :=
  c == ' ' || c == '\t' || c == '\n' || c == '\r' ||
    c.toNat == 11 || c.toNat == 12 ||
    c.toNat == 0xa0 || c.toNat == 0x1680 ||
    (0x2000 ≤ c.toNat && c.toNat ≤ 0x200a) ||
    c.toNat == 0x2028 || c.toNat == 0x2029 || c.toNat == 0x202f ||
    c.toNat == 0x205f || c.toNat == 0x3000 || c.toNat == 0xfeff

/-- Strip leading and trailing whitespace from a character list, modelling
`String.prototype.trim`. -/
def trimChars (cs : List Char) : List Char :=
  ((cs.dropWhile isWs).reverse.dropWhile isWs).reverse

/-- Split a character list at every character satisfying `p`, keeping empty
segments (the semantics of splitting on each single separator character). -/
def splitOnPred (p : Char → Bool) : List Char → List (List Char)
  | [] => [[]]
  | c :: cs =>
    if p c then [] :: splitOnPred p cs
    else
      match splitOnPred p cs with
      | [] => [[c]]
      | t :: ts => (c :: t) :: ts

/-- Split a character list into lines at `'\n'` (every segment between
newlines, including a final empty segment after a trailing newline). -/
def splitLinesAux : List Char → List Char → List (List Char)
  | [], cur => [cur.reverse]
  | c :: cs, cur =>
    if c == '\n' then cur.reverse :: splitLinesAux cs []
    else splitLinesAux cs (c :: cur)

def splitLines (cs : List Char) : List (List Char) :=
  splitLinesAux cs []

/-- Value of a list of decimal digit characters. -/
def digitsToNat (cs : List Char) : Nat :=
  cs.foldl (fun a c => 10 * a + (c.toNat - 48)) 0

/-- The optional exponent part of a decimal numeral: empty, or `e`/`E`, an
optional sign and at least one digit.  Returns the sign (`true` for
negative) and the magnitude, or `none` when the suffix is not a valid
exponent part. -/
def parseExpPart : List Char → Option (Bool × Nat)
  | [] => some (false, 0)
  | c :: r =>
    if c == 'e' || c == 'E' then
      match r with
      | '+' :: d => if !d.isEmpty && d.all Char.isDigit then some (false, digitsToNat d) else none
      | '-' :: d => if !d.isEmpty && d.all Char.isDigit then some (true, digitsToNat d) else none
      | d => if !d.isEmpty && d.all Char.isDigit then some (false, digitsToNat d) else none
    else none

/-- The exact rational value of a decimal literal with integer digits
`intPart`, fraction digits `frac` and exponent `e`: the mantissa
`intPart.frac` is the integer `intPart ++ frac` divided by
`10 ^ frac.length`, then scaled by `10 ^ e`; built with a single `mkRat`
over natural-number arithmetic. -/
def decimalValue (intPart frac : List Char) : Bool × Nat → ℚ
  | (false, n) => mkRat (digitsToNat (intPart ++ frac) * 10 ^ n) (10 ^ frac.length)
  | (true, n) => mkRat (digitsToNat (intPart ++ frac)) (10 ^ frac.length * 10 ^ n)

/-- An unsigned `StrUnsignedDecimalLiteral` other than `Infinity`: digits
with an optional fraction and an optional exponent part (`12`, `1.5`, `.5`,
`1.`, `1e3`, `1.2E-4`, ...), with at least one digit in the mantissa.
Returns `none` for strings `Number()` maps to `NaN`. -/
def parseDecimal (cs : List Char) : Option ℚ :=
  let intPart := cs.takeWhile Char.isDigit
  let rest1 := cs.dropWhile Char.isDigit
  match rest1 with
  | '.' :: r2 =>
    let frac := r2.takeWhile Char.isDigit
    let rest2 := r2.dropWhile Char.isDigit
    if intPart.isEmpty && frac.isEmpty then none
    else (parseExpPart rest2).map (decimalValue intPart frac)
  | _ =>
    if intPart.isEmpty then none
    else (parseExpPart rest1).map (decimalValue intPart [])

/-- Value of a hexadecimal digit (also correct on decimal and lower radix
digits). -/
def hexDigitVal (c : Char) : Nat :=
  if c.isDigit then c.toNat - 48
  else if decide ('a' ≤ c) && decide (c ≤ 'f') then c.toNat - 87
  else c.toNat - 55

def isHexDigitChar (c : Char) : Bool :=
  c.isDigit || (decide ('a' ≤ c) && decide (c ≤ 'f'))
    || (decide ('A' ≤ c) && decide (c ≤ 'F'))

def isOctalDigitChar (c : Char) : Bool :=
  decide ('0' ≤ c) && decide (c ≤ '7')

def isBinaryDigitChar (c : Char) : Bool :=
  c == '0' || c == '1'

/-- An unsigned radix-`b` integer literal body with at least one digit. -/
def parseRadix (b : Nat) (isD : Char → Bool) (cs : List Char) : Option ℚ :=
  if !cs.isEmpty && cs.all isD then
    some ((cs.foldl (fun a c => b * a + hexDigitVal c) 0 : Nat) : ℚ)
  else none

/-- The smallest positive magnitude an exact value may have and still round
to `Infinity` under IEEE 754 double rounding (round half to even): the
midpoint between the largest finite double `2^1024 - 2^971` and `2^1024`,
written as a numeral so that it evaluates during kernel reduction;
`overflowBound_eq` checks it against the power expression. -/
def overflowBound : ℚ := 179769313486231580793728971405303415079934132710037826936173778980444968292764750946649017977587207096330286416692887910946555547851940402630657488671505820681908902000708383676273854845817711531764475730270069855571366959622842914819860834936475292719074168444365510704342711559699508093042880177904174497792

/-- The largest positive magnitude that rounds to `0` under IEEE 754 double
rounding: the midpoint `2^-1075` between `0` and the smallest subnormal
`2^-1074` (the tie rounds to the even candidate `0`); the denominator is
written as a numeral, checked by `underflowBound_eq`. -/
def underflowBound : ℚ := mkRat 1 404804506614621236704990693437834614099113299528284236713802716054860679135990693783920767402874248990374155728633623822779617474771586953734026799881477019843034848553132722728933815484186432682479535356945490137124014966849385397236206711298319112681620113024717539104666829230461005064372655017292012526615415482186989568

set_option maxRecDepth 4000 in
theorem overflowBound_eq : overflowBound = 2 ^ 1024 - 2 ^ 970 := by
  norm_num [overflowBound]

set_option maxRecDepth 4000 in
theorem underflowBound_eq : underflowBound = 1 / 2 ^ 1075 := by
  rw [underflowBound, Rat.mkRat_eq_div]
  norm_num

/-- Round a nonnegative exact magnitude to the double range: magnitudes at or
above `overflowBound` become `Infinity` (represented as `none`, since
`Number.isFinite` drops them exactly like `NaN`), magnitudes at or below
`underflowBound` become `0`, and in-range magnitudes are kept as exact
rationals.  In-range rounding to the nearest double is not applied: it moves
a value neither to `0` nor out of the finite range, so the source's
`Number.isFinite(entry) && entry > 0` filter selects exactly the same
tokens, and integer inputs below `2^53` are exact in both. -/
def saturate (m : ℚ) : Option ℚ :=
  if overflowBound ≤ m then none
  else if m ≤ underflowBound then some 0
  else some m

/-- The JavaScript `Number()` conversion on the tokens that can reach it in
`parseSectionListArg` (nonempty strings free of whitespace and commas),
following the `StringNumericLiteral` grammar: an optionally signed decimal
literal with optional fraction and exponent, or an unsigned hexadecimal,
octal or binary literal (`0x`/`0X`, `0o`/`0O`, `0b`/`0B`).  `none` stands
for a `NaN` or infinite result — `Infinity` tokens, signed non-decimal
forms and all other non-numerals parse to `none`, and finite magnitudes are
saturated at the double rounding boundaries by `saturate`. -/
def jsNumberChars : List Char → Option ℚ
  | [] => some 0
  | '0' :: 'x' :: r => (parseRadix 16 isHexDigitChar r).bind saturate
  | '0' :: 'X' :: r => (parseRadix 16 isHexDigitChar r).bind saturate
  | '0' :: 'o' :: r => (parseRadix 8 isOctalDigitChar r).bind saturate
  | '0' :: 'O' :: r => (parseRadix 8 isOctalDigitChar r).bind saturate
  | '0' :: 'b' :: r => (parseRadix 2 isBinaryDigitChar r).bind saturate
  | '0' :: 'B' :: r => (parseRadix 2 isBinaryDigitChar r).bind saturate
  | '-' :: rest => ((parseDecimal rest).bind saturate).map (fun q => -q)
  | '+' :: rest => (parseDecimal rest).bind saturate
  | cs => (parseDecimal cs).bind saturate

/-- The character class of the `/[,\s]+/` split pattern. -/
def jsSplitChar (c : Char) : Bool :=
  c == ',' || isWs c

/-- `parseSectionListArg` from `src/j/main.ts` (first copy, lines 143-149):
split the argument on commas/whitespace, trim, drop empty tokens, convert
with `Number`, and keep the finite values strictly greater than zero.
Splitting on each separator character instead of on maximal separator runs
introduces only empty tokens, which the empty-token filter removes, so the
result agrees with the `/[,\s]+/` regex split of the source. -/
def parseSectionListArg (value : String) : List ℚ :=
  (((((splitOnPred jsSplitChar value.data).map trimChars).filter
      (fun t => !t.isEmpty)).filterMap jsNumberChars).filter
    (fun q => decide (0 < q)))

/-- `parseSectionListArg` from the second copy of `main.ts` appended in the
same file (lines 507-513); the source text of the two copies is identical. -/
def parseSectionListArgSecond (value : String) : List ℚ :=
  (((((splitOnPred jsSplitChar value.data).map trimChars).filter
      (fun t => !t.isEmpty)).filterMap jsNumberChars).filter
    (fun q => decide (0 < q)))

/-! ### Section splitter, modelled from the spec (section 4.1)

The splitter lives in `src/j/actions.ts`, which is not among the provided
sources; the definitions below follow the spec's algorithm word for word. -/

/-- Modelled from the spec: a line is a separator if, after trimming, it
consists of three or more repetitions of one of `-`, `*`, `_` and nothing
else (spec 4.1 step 2; `actions.ts` is not part of the provided sources). -/
def isSeparatorLine (l : List Char) : Bool :=
  let t := trimChars l
  decide (3 ≤ t.length) &&
    (t.all (fun c => c == '-') || t.all (fun c => c == '*') || t.all (fun c => c == '_'))

/-- Modelled from the spec: a boundary line is blank (empty or all
whitespace) or a separator (spec 4.1 steps 2-4). -/
def isBoundaryLine (l : List Char) : Bool :=
  (trimChars l).isEmpty || isSeparatorLine l

/-- Modelled from the spec: the logical lines of a document; a final newline
does not contribute a trailing empty line (spec 4.1 step 1). -/
def toLines (text : String) : List (List Char) :=
  let ls := splitLines text.data
  match text.data.getLast? with
  | some '\n' => ls.dropLast
  | _ => ls

/-- State of the run-collection fold: the next 1-based line number, the
section run currently being collected (start line and lines in reverse), and
the finished runs in reverse order. -/
structure SplitState where
  pos : Nat
  current : Option (Nat × List (List Char))
  finished : List (Nat × List (List Char))

def splitStep (st : SplitState) (l : List Char) : SplitState :=
  if isBoundaryLine l then
    match st.current with
    | some (s, ls) =>
      { pos := st.pos + 1, current := none, finished := (s, ls.reverse) :: st.finished }
    | none => { st with pos := st.pos + 1 }
  else
    match st.current with
    | some (s, ls) => { pos := st.pos + 1, current := some (s, l :: ls), finished := st.finished }
    | none => { pos := st.pos + 1, current := some (st.pos, [l]), finished := st.finished }

/-- Modelled from the spec: the maximal runs of non-boundary lines, each with
its 1-based start line; leading and trailing boundary lines are discarded
(spec 4.1 steps 3-6). -/
def contentRuns (ls : List (List Char)) : List (Nat × List (List Char)) :=
  let st := ls.foldl splitStep ⟨1, none, []⟩
  let fin :=
    match st.current with
    | some (s, rl) => (s, rl.reverse) :: st.finished
    | none => st.finished
  fin.reverse

/-- A section record: 1-based ordinal, inclusive 1-based line range, derived
title and preview, and the literal source lines (spec section 3). -/
structure Section where
  index : Nat
  startLine : Nat
  endLine : Nat
  title : String
  preview : String
  rawLines : List String
deriving DecidableEq, Repr

/-- Modelled from the spec: the title is the first raw line with leading `#`
markers and surrounding whitespace stripped, or `"(empty section)"` when that
leaves nothing (spec 4.1 step 7). -/
def titleOf (ls : List (List Char)) : String :=
  match ls with
  | [] => "(empty section)"
  | first :: _ =>
    let t := trimChars ((trimChars first).dropWhile (fun c => c == '#'))
    if t.isEmpty then "(empty section)" else String.mk t

/-- Modelled from the spec: the preview joins the raw lines with single
spaces, collapses repeated whitespace and trims (spec 4.1 step 8). -/
def previewOf (ls : List (List Char)) : String :=
  let joined := List.intercalate [' '] ls
  String.mk (List.intercalate [' ']
    ((splitOnPred isWs joined).filter (fun t => !t.isEmpty)))

/-- Modelled from the spec: `split` partitions a document into sections at
boundary runs, numbering them from 1 in document order (spec 4.1; the
implementation in `actions.ts` is not part of the provided sources). -/
def split (text : String) : List Section :=
  (contentRuns (toLines text)).enum.map (fun pr =>
    { index := pr.1 + 1
      startLine := pr.2.1
      endLine := pr.2.1 + pr.2.2.length - 1
      title := titleOf pr.2.2
      preview := previewOf pr.2.2
      rawLines := pr.2.2.map String.mk })

/-! ### Section extractor, modelled from the spec (section 4.2) -/

inductive ExtractErr where
  | invalidSectionIndex
deriving DecidableEq, Repr

structure ExtractionResult where
  remainingSourceText : String
  newNoteText : String
deriving DecidableEq, Repr

def sectionText (s : Section) : String :=
  String.intercalate "\n" s.rawLines

/-- Collapse every run of three or more consecutive blank lines down to a
single blank line (spec 4.2 step 3). -/
def collapseFlush (pending : List (List Char)) : List (List Char) :=
  if 3 ≤ pending.length then [[]] else pending

def collapseStep (st : List (List Char) × List (List Char)) (l : List Char) :
    List (List Char) × List (List Char) :=
  if (trimChars l).isEmpty then (st.1, st.2 ++ [l])
  else (st.1 ++ collapseFlush st.2 ++ [l], [])

def collapseBlankRuns (ls : List (List Char)) : List (List Char) :=
  let st := ls.foldl collapseStep ([], [])
  st.1 ++ collapseFlush st.2

/-- Trim a single trailing blank line if the document now ends in one
(spec 4.2 step 3). -/
def trimTrailingBlank (ls : List (List Char)) : List (List Char) :=
  match ls.getLast? with
  | some l => if (trimChars l).isEmpty then ls.dropLast else ls
  | none => ls

/-- Modelled from the spec: the pure extractor (spec 4.2; the implementation
in `actions.ts` is not part of the provided sources).  Indices are checked
against the parsed sections before any mutation is computed; resolution
deduplicates and yields sections in ascending document order; the new note
joins the resolved raw sections with one blank line; the remaining source
drops the resolved line ranges, collapses blank runs of three or more lines
and trims a single trailing blank line. -/
def extract (documentText : String) (indices : List Nat) :
    Except ExtractErr ExtractionResult :=
  let sections := split documentText
  if indices.all (fun i => sections.any (fun s => s.index == i)) then
    let resolved := sections.filter (fun s => indices.contains s.index)
    let newNoteText := String.intercalate "\n\n" (resolved.map sectionText)
    let kept := ((toLines documentText).enum.filter (fun pr =>
      !(resolved.any (fun s =>
        decide (s.startLine ≤ pr.1 + 1) && decide (pr.1 + 1 ≤ s.endLine))))).map Prod.snd
    let remaining := trimTrailingBlank (collapseBlankRuns kept)
    Except.ok
      { remainingSourceText := String.intercalate "\n" (remaining.map String.mk)
        newNoteText := newNoteText }
  else Except.error ExtractErr.invalidSectionIndex

/-- A file mutation performed through the Document Store. -/
structure Write where
  target : String
  text : String
deriving DecidableEq, Repr

/-- Modelled from the spec: the store-level `extractSectionsToNote` of
`actions.ts` (not among the provided sources).  Per spec 4.2 step 4 and
section 7, the extraction result is computed first; on an error no write is
performed at all, and on success the destination note is written before the
mutated source. -/
def extractSectionsToNote (source documentText : String) (indices : List Nat)
    (slug : String) : Except ExtractErr (List Write) :=
  match extract documentText indices with
  | Except.error e => Except.error e
  | Except.ok r =>
    Except.ok
      [{ target := "notes/" ++ slug ++ ".md", text := r.newNoteText },
       { target := source, text := r.remainingSourceText }]

/-! ### The CLI entry point `main` of `src/j/main.ts` (first copy, lines 286-471)

`main` is an Effect pipeline; it is embedded as a function from the parsed
options (the output of the external `CommandDescriptor.parse` collaborator,
`none` standing for the help/built-in path) and an abstract environment of
collaborator actions to the list of observable events together with an
`Except` result.  The `-N` / `--offset=` preprocessing of the raw argument
vector is part of the external argument-parsing boundary and is represented
by the `offset` parameter. -/

/-- A failure value on the error channel, carrying the `Error` message. -/
structure JError where
  msg : String
deriving DecidableEq, Repr

/-- JSON values as produced by `outputJson`. -/
inductive JValue where
  | str (s : String)
  | num (q : ℚ)
  | bool (b : Bool)
  | null
  | arr (xs : List JValue)
  | obj (fields : List (String × JValue))

/-- One record of the section listing returned by the `listSections`
collaborator action. -/
structure SectionInfo where
  index : Nat
  startLine : Nat
  endLine : Nat
  title : String
  preview : String

def sectionInfoJson (s : SectionInfo) : JValue :=
  JValue.obj
    [("index", JValue.num s.index), ("startLine", JValue.num s.startLine),
     ("endLine", JValue.num s.endLine), ("title", JValue.str s.title),
     ("preview", JValue.str s.preview)]

/-- Observable events of one `main` run: JSON printed to stdout, plain
console lines, the extraction action, and the remaining collaborator
actions by name. -/
inductive Event where
  | jsonOut (v : JValue)
  | log (s : String)
  | invokeExtract (source : String) (sections : List ℚ) (slug : String)
  | invokeAction (name : String)

structure Paths where
  journalDir : String
  notesDir : String

/-- The collaborator actions `main` invokes, each returning its result or a
failure; this is the boundary to `actions.ts` and the file system. -/
structure Env where
  getJournalPaths : Except JError Paths
  makeDirectory : Except JError Unit
  today : String
  dateDaysAgo : ℚ → String
  getEntries : Option String → Except JError JValue
  getSearchMatches : Except JError JValue
  getTimelineEntries : Option String → Except JError JValue
  listTags : Except JError JValue
  getNotes : Except JError JValue
  getMostRecentPath : Except JError (Option String)
  extractSectionsToNoteAct : String → List ℚ → String → Except JError Unit
  listSections : String → Except JError (List SectionInfo)
  openEntry : String → Except JError Unit
  searchByDate : Option String → Except JError Unit
  searchByContent : Except JError Unit
  timelineView : Option String → Except JError Unit
  tagBrowse : Option String → Except JError Unit
  noteBrowse : Option String → Except JError Unit
  openMostRecent : Except JError Unit

/-- The record produced by `parseArgs` (first copy): each option is present
or absent, plus the `tagRequested` scan of the raw arguments. -/
structure ParsedOpts where
  json : Option Bool
  date : Option Bool
  search : Option Bool
  timeline : Option Bool
  cont : Option Bool
  tag : Option String
  note : Option String
  extract : Option String
  sections : Option String
  slug : Option String
  tagRequested : Bool

/-- JavaScript truthiness of `boolean | undefined`. -/
def truthyB : Option Bool → Bool
  | some b => b
  | none => false

/-- JavaScript truthiness of `string | undefined` (the empty string is
falsy). -/
def truthyS : Option String → Bool
  | some s => s != ""
  | none => false

inductive Mode where
  | date | search | timeline | cont | extract | sections | tag | note | today
deriving DecidableEq, Repr

/-- The mode-selection chain of `main` (lines 313-329): nested conditional
operators from `parsed.date` down to the `"today"` default. -/
def mode (p : ParsedOpts) : Mode :=
  if truthyB p.date then Mode.date
  else if truthyB p.search then Mode.search
  else if truthyB p.timeline then Mode.timeline
  else if truthyB p.cont then Mode.cont
  else if truthyS p.extract then Mode.extract
  else if truthyS p.sections then Mode.sections
  else if p.tagRequested then Mode.tag
  else if truthyS p.note then Mode.note
  else Mode.today

/-- One run outcome: the emitted events and the result on the error
channel. -/
abbrev RunOut := List Event × Except JError Unit

def okRun : RunOut := ([], Except.ok ())

def failRun (msg : String) : RunOut := ([], Except.error { msg := msg })

def outJ (v : JValue) : RunOut := ([Event.jsonOut v], Except.ok ())

/-- Sequence a collaborator action: on failure the pipeline short-circuits,
on success the continuation runs after the action's event. -/
def step {α : Type} (name : String) (x : Except JError α) (k : α → RunOut) : RunOut :=
  match x with
  | Except.error e => ([Event.invokeAction name], Except.error e)
  | Except.ok a => ((Event.invokeAction name) :: (k a).1, (k a).2)

/-- Sequence the `extractSectionsToNote` action, recording its arguments. -/
def stepExtract (env : Env) (src : String) (l : List ℚ) (slug : String)
    (k : RunOut) : RunOut :=
  match env.extractSectionsToNoteAct src l slug with
  | Except.error e => ([Event.invokeExtract src l slug], Except.error e)
  | Except.ok _ => ((Event.invokeExtract src l slug) :: k.1, k.2)

def pathJoin (a b : String) : String := a ++ "/" ++ b

def todayDate (env : Env) (offset : Option ℚ) : String :=
  match offset with
  | some o => env.dateDaysAgo o
  | none => env.today

/-- The `"ok"` object printed after a successful JSON-mode extraction
(lines 396-401). -/
def extractOkObj (src : String) (l : List ℚ) (slug : String) : JValue :=
  JValue.obj
    [("status", JValue.str "ok"), ("source", JValue.str src),
     ("sections", JValue.arr (l.map JValue.num)), ("slug", JValue.str slug)]

/-- The `case "extract"` body of the JSON branch (lines 382-403): silent
return unless both `--extract` and `--slug` are truthy, then run the
extraction when the parsed section list is nonempty and print the `"ok"`
object, otherwise fail with `"Missing extract sections."`. -/
def extractJsonRun (env : Env) (p : ParsedOpts) : RunOut :=
  if !(truthyS p.extract && truthyS p.slug) then okRun
  else
    match (if truthyS p.sections then some (parseSectionListArg (p.sections.getD "")) else none) with
    | some l =>
      if 0 < l.length then
        stepExtract env (p.extract.getD "") l (p.slug.getD "")
          (outJ (extractOkObj (p.extract.getD "") l (p.slug.getD "")))
      else failRun "Missing extract sections."
    | none => failRun "Missing extract sections."

/-- The `case "extract"` body of the non-JSON branch (lines 442-457), which
is the JSON branch without the final `outputJson`. -/
def extractPlainRun (env : Env) (p : ParsedOpts) : RunOut :=
  if !(truthyS p.extract && truthyS p.slug) then okRun
  else
    match (if truthyS p.sections then some (parseSectionListArg (p.sections.getD "")) else none) with
    | some l =>
      if 0 < l.length then
        stepExtract env (p.extract.getD "") l (p.slug.getD "") okRun
      else failRun "Missing extract sections."
    | none => failRun "Missing extract sections."

/-- The `if (parsed.json)` switch of `main` (lines 331-414). -/
def jsonModeRun (env : Env) (p : ParsedOpts) (offset : Option ℚ) (paths : Paths) : RunOut :=
  match mode p with
  | Mode.today =>
    let date := todayDate env offset
    outJ (JValue.obj
      [("date", JValue.str date),
       ("path", JValue.str (pathJoin paths.journalDir (date ++ ".md")))])
  | Mode.date =>
    step "getEntries" (env.getEntries p.tag) (fun entries =>
      outJ (if truthyS p.tag then
        JValue.obj [("tag", JValue.str (p.tag.getD "")), ("entries", entries)]
      else JValue.obj [("entries", entries)]))
  | Mode.search =>
    step "getSearchMatches" env.getSearchMatches (fun ms =>
      outJ (JValue.obj [("matches", ms)]))
  | Mode.timeline =>
    step "getTimelineEntries" (env.getTimelineEntries p.tag) (fun entries =>
      outJ (if truthyS p.tag then
        JValue.obj [("tag", JValue.str (p.tag.getD "")), ("entries", entries)]
      else JValue.obj [("entries", entries)]))
  | Mode.tag =>
    if truthyS p.tag then
      step "getEntries" (env.getEntries p.tag) (fun entries =>
        outJ (JValue.obj [("tag", JValue.str (p.tag.getD "")), ("entries", entries)]))
    else
      step "listTags" env.listTags (fun tags =>
        outJ (JValue.obj [("tags", tags)]))
  | Mode.note =>
    if truthyS p.note then
      outJ (JValue.obj
        [("slug", JValue.str (p.note.getD "")),
         ("path", JValue.str (pathJoin paths.notesDir ((p.note.getD "") ++ ".md")))])
    else
      step "getNotes" env.getNotes (fun notes =>
        outJ (JValue.obj [("notes", notes)]))
  | Mode.cont =>
    step "getMostRecentPath" env.getMostRecentPath (fun pathOpt =>
      if truthyS pathOpt then
        outJ (JValue.obj [("path", JValue.str (pathOpt.getD ""))])
      else failRun "No entries found.")
  | Mode.extract => extractJsonRun env p
  | Mode.sections =>
    if truthyS p.sections then
      step "listSections" (env.listSections (p.sections.getD "")) (fun secs =>
        outJ (JValue.obj
          [("source", JValue.str (p.sections.getD "")),
           ("sections", JValue.arr (secs.map sectionInfoJson))]))
    else okRun

def sectionLogLine (s : SectionInfo) : String :=
  toString s.index ++ "\t" ++ toString s.startLine ++ "-" ++ toString s.endLine
    ++ "\t" ++ s.title

/-- The non-JSON switch of `main` (lines 416-470). -/
def plainModeRun (env : Env) (p : ParsedOpts) (offset : Option ℚ) : RunOut :=
  match mode p with
  | Mode.today => step "openEntry" (env.openEntry (todayDate env offset)) (fun _ => okRun)
  | Mode.date => step "searchByDate" (env.searchByDate p.tag) (fun _ => okRun)
  | Mode.search => step "searchByContent" env.searchByContent (fun _ => okRun)
  | Mode.timeline => step "timelineView" (env.timelineView p.tag) (fun _ => okRun)
  | Mode.tag => step "tagBrowse" (env.tagBrowse p.tag) (fun _ => okRun)
  | Mode.note => step "noteBrowse" (env.noteBrowse p.note) (fun _ => okRun)
  | Mode.cont => step "openMostRecent" env.openMostRecent (fun _ => okRun)
  | Mode.extract => extractPlainRun env p
  | Mode.sections =>
    if truthyS p.sections then
      step "listSections" (env.listSections (p.sections.getD "")) (fun secs =>
        (secs.map (fun s => Event.log (sectionLogLine s)), Except.ok ()))
    else okRun

/-- `main` (first copy, lines 286-471): resolve paths, ensure the journal
directory, select the mode and dispatch to the JSON or interactive branch. -/
def mainRun (env : Env) (parsed : Option ParsedOpts) (offset : Option ℚ) : RunOut :=
  match parsed with
  | none => okRun
  | some p =>
    step "getJournalPaths" env.getJournalPaths (fun paths =>
      step "makeDirectory" env.makeDirectory (fun _ =>
        if truthyB p.json then jsonModeRun env p offset paths
        else plainModeRun env p offset))

/-- What the process boundary observes after a run. -/
structure ProgResult where
  exitCode : Nat
  stderr : List String
  events : List Event

/-- The launcher `program` (the `index.ts` wrapper): run `main`; on a failure
print the error's message when it is an `Error` with a nonempty message and
set the exit code to 1. -/
def program (env : Env) (parsed : Option ParsedOpts) (offset : Option ℚ) : ProgResult :=
  match mainRun env parsed offset with
  | (evs, Except.ok _) => { exitCode := 0, stderr := [], events := evs }
  | (evs, Except.error e) =>
    { exitCode := 1, stderr := if e.msg == "" then [] else [e.msg], events := evs }

/-- A concrete environment in which every collaborator action succeeds. -/
def envDefault : Env where
  getJournalPaths := Except.ok { journalDir := "journal", notesDir := "journal/notes" }
  makeDirectory := Except.ok ()
  today := "2025-01-01"
  dateDaysAgo := fun _ => "2024-12-31"
  getEntries := fun _ => Except.ok (JValue.arr [])
  getSearchMatches := Except.ok (JValue.arr [])
  getTimelineEntries := fun _ => Except.ok (JValue.arr [])
  listTags := Except.ok (JValue.arr [])
  getNotes := Except.ok (JValue.arr [])
  getMostRecentPath := Except.ok (some "journal/2025-01-01.md")
  extractSectionsToNoteAct := fun _ _ _ => Except.ok ()
  listSections := fun _ => Except.ok []
  openEntry := fun _ => Except.ok ()
  searchByDate := fun _ => Except.ok ()
  searchByContent := Except.ok ()
  timelineView := fun _ => Except.ok ()
  tagBrowse := fun _ => Except.ok ()
  noteBrowse := fun _ => Except.ok ()
  openMostRecent := Except.ok ()

/-! ### Observables and well-formedness of the collaborator boundary -/

def isJsonOut : Event → Bool
  | Event.jsonOut _ => true
  | _ => false

/-- The JSON objects printed during a run, in order. -/
def jsonOuts (evs : List Event) : List Event := evs.filter isJsonOut

def isExtractCall : Event → Bool
  | Event.invokeExtract _ _ _ => true
  | _ => false

/-- How many times the run invoked `extractSectionsToNote`. -/
def extractCalls (evs : List Event) : Nat := evs.countP isExtractCall

/-- An action result whose failures carry a nonempty message (collaborator
failures are `Error` values with human-readable messages). -/
def errMsgOk {α : Type} (x : Except JError α) : Prop :=
  ∀ e, x = Except.error e → e.msg ≠ ""

/-- Every collaborator action of the environment fails, when it fails, with a
nonempty message. -/
structure WellFormedEnv (env : Env) : Prop where
  paths : errMsgOk env.getJournalPaths
  mkdir : errMsgOk env.makeDirectory
  entries : ∀ t, errMsgOk (env.getEntries t)
  searchMatches : errMsgOk env.getSearchMatches
  timelineEntries : ∀ t, errMsgOk (env.getTimelineEntries t)
  tags : errMsgOk env.listTags
  notes : errMsgOk env.getNotes
  recent : errMsgOk env.getMostRecentPath
  extractAct : ∀ s l g, errMsgOk (env.extractSectionsToNoteAct s l g)
  sectionsAct : ∀ s, errMsgOk (env.listSections s)
  openEntryAct : ∀ s, errMsgOk (env.openEntry s)
  searchByDateAct : ∀ t, errMsgOk (env.searchByDate t)
  searchByContentAct : errMsgOk env.searchByContent
  timelineViewAct : ∀ t, errMsgOk (env.timelineView t)
  tagBrowseAct : ∀ t, errMsgOk (env.tagBrowse t)
  noteBrowseAct : ∀ t, errMsgOk (env.noteBrowse t)
  openMostRecentAct : errMsgOk env.openMostRecent

/-- A run outcome that, on failure, carries a nonempty message and has
printed no JSON. -/
def GoodOut (out : RunOut) : Prop :=
  ∀ e, out.2 = Except.error e → e.msg ≠ "" ∧ jsonOuts out.1 = []

theorem goodOut_okRun : GoodOut okRun := by
  intro e he
  simp [okRun] at he

theorem goodOut_outJ (v : JValue) : GoodOut (outJ v) := by
  intro e he
  simp [outJ] at he

theorem goodOut_failRun (msg : String) (h : msg ≠ "") : GoodOut (failRun msg) := by
  intro e he
  have he' : Except.error (JError.mk msg) = Except.error e := he
  cases he'
  exact ⟨h, rfl⟩

theorem goodOut_step {α : Type} (name : String) (x : Except JError α)
    (k : α → RunOut) (hx : errMsgOk x) (hk : ∀ a, GoodOut (k a)) :
    GoodOut (step name x k) := by
  cases hxe : x with
  | error e' =>
    intro e he
    have heq : Except.error (α := Unit) e' = Except.error e := he
    cases heq
    exact ⟨hx e' hxe, rfl⟩
  | ok a =>
    intro e he
    have h := hk a e he
    refine ⟨h.1, ?_⟩
    show jsonOuts ((Event.invokeAction name) :: (k a).1) = []
    have h2 := h.2
    simp [jsonOuts, List.filter, isJsonOut] at h2 ⊢
    exact h2

theorem goodOut_stepExtract (env : Env) (src : String) (l : List ℚ)
    (slug : String) (k : RunOut)
    (hx : errMsgOk (env.extractSectionsToNoteAct src l slug)) (hk : GoodOut k) :
    GoodOut (stepExtract env src l slug k) := by
  cases hxe : env.extractSectionsToNoteAct src l slug with
  | error e' =>
    have hstep : stepExtract env src l slug k
        = ([Event.invokeExtract src l slug], Except.error e') := by
      unfold stepExtract
      rw [hxe]
    rw [hstep]
    intro e he
    have heq : Except.error (α := Unit) e' = Except.error e := he
    cases heq
    refine ⟨hx e' hxe, ?_⟩
    rfl
  | ok a =>
    have hstep : stepExtract env src l slug k
        = ((Event.invokeExtract src l slug) :: k.1, k.2) := by
      unfold stepExtract
      rw [hxe]
    rw [hstep]
    intro e he
    have h := hk e he
    refine ⟨h.1, ?_⟩
    show jsonOuts ((Event.invokeExtract src l slug) :: k.1) = []
    have h2 := h.2
    simp [jsonOuts, List.filter, isJsonOut] at h2 ⊢
    exact h2

theorem goodOut_okPair (evs : List Event) : GoodOut (evs, Except.ok ()) := by
  intro e he
  exact Except.noConfusion he

theorem goodOut_extractJsonRun (env : Env) (p : ParsedOpts)
    (hwf : WellFormedEnv env) : GoodOut (extractJsonRun env p) := by
  unfold extractJsonRun
  split
  · exact goodOut_okRun
  · split
    · split
      · exact goodOut_stepExtract _ _ _ _ _ (hwf.extractAct _ _ _) (goodOut_outJ _)
      · exact goodOut_failRun _ (by decide)
    · exact goodOut_failRun _ (by decide)

theorem goodOut_extractPlainRun (env : Env) (p : ParsedOpts)
    (hwf : WellFormedEnv env) : GoodOut (extractPlainRun env p) := by
  unfold extractPlainRun
  split
  · exact goodOut_okRun
  · split
    · split
      · exact goodOut_stepExtract _ _ _ _ _ (hwf.extractAct _ _ _) goodOut_okRun
      · exact goodOut_failRun _ (by decide)
    · exact goodOut_failRun _ (by decide)

theorem goodOut_jsonModeRun (env : Env) (p : ParsedOpts) (offset : Option ℚ)
    (paths : Paths) (hwf : WellFormedEnv env) :
    GoodOut (jsonModeRun env p offset paths) := by
  unfold jsonModeRun
  split
  · exact goodOut_outJ _
  · exact goodOut_step _ _ _ (hwf.entries _) (fun _ => goodOut_outJ _)
  · exact goodOut_step _ _ _ hwf.searchMatches (fun _ => goodOut_outJ _)
  · exact goodOut_step _ _ _ (hwf.timelineEntries _) (fun _ => goodOut_outJ _)
  · split
    · exact goodOut_step _ _ _ (hwf.entries _) (fun _ => goodOut_outJ _)
    · exact goodOut_step _ _ _ hwf.tags (fun _ => goodOut_outJ _)
  · split
    · exact goodOut_outJ _
    · exact goodOut_step _ _ _ hwf.notes (fun _ => goodOut_outJ _)
  · refine goodOut_step _ _ _ hwf.recent (fun pathOpt => ?_)
    split
    · exact goodOut_outJ _
    · exact goodOut_failRun _ (by decide)
  · exact goodOut_extractJsonRun env p hwf
  · split
    · exact goodOut_step _ _ _ (hwf.sectionsAct _) (fun _ => goodOut_outJ _)
    · exact goodOut_okRun

theorem goodOut_plainModeRun (env : Env) (p : ParsedOpts) (offset : Option ℚ)
    (hwf : WellFormedEnv env) : GoodOut (plainModeRun env p offset) := by
  unfold plainModeRun
  split
  · exact goodOut_step _ _ _ (hwf.openEntryAct _) (fun _ => goodOut_okRun)
  · exact goodOut_step _ _ _ (hwf.searchByDateAct _) (fun _ => goodOut_okRun)
  · exact goodOut_step _ _ _ hwf.searchByContentAct (fun _ => goodOut_okRun)
  · exact goodOut_step _ _ _ (hwf.timelineViewAct _) (fun _ => goodOut_okRun)
  · exact goodOut_step _ _ _ (hwf.tagBrowseAct _) (fun _ => goodOut_okRun)
  · exact goodOut_step _ _ _ (hwf.noteBrowseAct _) (fun _ => goodOut_okRun)
  · exact goodOut_step _ _ _ hwf.openMostRecentAct (fun _ => goodOut_okRun)
  · exact goodOut_extractPlainRun env p hwf
  · split
    · exact goodOut_step _ _ _ (hwf.sectionsAct _) (fun secs => goodOut_okPair _)
    · exact goodOut_okRun

theorem goodOut_mainRun (env : Env) (parsed : Option ParsedOpts)
    (offset : Option ℚ) (hwf : WellFormedEnv env) :
    GoodOut (mainRun env parsed offset) := by
  unfold mainRun
  cases parsed with
  | none => exact goodOut_okRun
  | some p =>
    refine goodOut_step _ _ _ hwf.paths (fun paths => ?_)
    refine goodOut_step _ _ _ hwf.mkdir (fun _ => ?_)
    split
    · exact goodOut_jsonModeRun env p offset paths hwf
    · exact goodOut_plainModeRun env p offset hwf

theorem extractCalls_step {α : Type} (name : String) (x : Except JError α)
    (k : α → RunOut) (h : ∀ a, extractCalls (k a).1 ≤ 1) :
    extractCalls (step name x k).1 ≤ 1 := by
  cases hxe : x with
  | error e =>
    show extractCalls [Event.invokeAction name] ≤ 1
    simp [extractCalls, List.countP_cons, List.countP_nil, isExtractCall]
  | ok a =>
    show extractCalls ((Event.invokeAction name) :: (k a).1) ≤ 1
    have := h a
    simp [extractCalls, List.countP_cons, isExtractCall] at this ⊢
    exact this

theorem extractCalls_stepExtract (env : Env) (src : String) (l : List ℚ)
    (slug : String) (k : RunOut) (h : extractCalls k.1 = 0) :
    extractCalls (stepExtract env src l slug k).1 ≤ 1 := by
  cases hxe : env.extractSectionsToNoteAct src l slug with
  | error e =>
    have hs : stepExtract env src l slug k
        = ([Event.invokeExtract src l slug], Except.error e) := by
      unfold stepExtract
      rw [hxe]
    rw [hs]
    simp [extractCalls, List.countP_cons, List.countP_nil, isExtractCall]
  | ok a =>
    have hs : stepExtract env src l slug k
        = ((Event.invokeExtract src l slug) :: k.1, k.2) := by
      unfold stepExtract
      rw [hxe]
    rw [hs]
    have h' : k.1.countP isExtractCall = 0 := h
    simp [extractCalls, List.countP_cons, isExtractCall, h']

theorem extractCalls_extractJsonRun (env : Env) (p : ParsedOpts) :
    extractCalls (extractJsonRun env p).1 ≤ 1 := by
  unfold extractJsonRun
  split
  · simp [okRun, extractCalls, List.countP_nil]
  · split
    · split
      · refine extractCalls_stepExtract _ _ _ _ _ ?_
        simp [outJ, extractCalls, List.countP_cons, List.countP_nil, isJsonOut, isExtractCall]
      · simp [failRun, extractCalls, List.countP_nil]
    · simp [failRun, extractCalls, List.countP_nil]

theorem extractCalls_extractPlainRun (env : Env) (p : ParsedOpts) :
    extractCalls (extractPlainRun env p).1 ≤ 1 := by
  unfold extractPlainRun
  split
  · simp [okRun, extractCalls, List.countP_nil]
  · split
    · split
      · refine extractCalls_stepExtract _ _ _ _ _ ?_
        simp [okRun, extractCalls, List.countP_nil]
      · simp [failRun, extractCalls, List.countP_nil]
    · simp [failRun, extractCalls, List.countP_nil]

theorem extractCalls_outJ (v : JValue) : extractCalls (outJ v).1 ≤ 1 := by
  simp [outJ, extractCalls, List.countP_cons, List.countP_nil, isExtractCall]

theorem extractCalls_logs (l : List SectionInfo) (f : SectionInfo → String) :
    extractCalls (l.map (fun s => Event.log (f s))) = 0 := by
  induction l with
  | nil => rfl
  | cons a t ih =>
    simp [extractCalls, List.countP_cons, isExtractCall]

theorem extractCalls_jsonModeRun (env : Env) (p : ParsedOpts) (offset : Option ℚ)
    (paths : Paths) : extractCalls (jsonModeRun env p offset paths).1 ≤ 1 := by
  unfold jsonModeRun
  split
  · exact extractCalls_outJ _
  · exact extractCalls_step _ _ _ (fun _ => extractCalls_outJ _)
  · exact extractCalls_step _ _ _ (fun _ => extractCalls_outJ _)
  · exact extractCalls_step _ _ _ (fun _ => extractCalls_outJ _)
  · split
    · exact extractCalls_step _ _ _ (fun _ => extractCalls_outJ _)
    · exact extractCalls_step _ _ _ (fun _ => extractCalls_outJ _)
  · split
    · exact extractCalls_outJ _
    · exact extractCalls_step _ _ _ (fun _ => extractCalls_outJ _)
  · refine extractCalls_step _ _ _ (fun pathOpt => ?_)
    split
    · exact extractCalls_outJ _
    · simp [failRun, extractCalls, List.countP_nil]
  · exact extractCalls_extractJsonRun env p
  · split
    · exact extractCalls_step _ _ _ (fun _ => extractCalls_outJ _)
    · simp [okRun, extractCalls, List.countP_nil]

theorem extractCalls_plainModeRun (env : Env) (p : ParsedOpts) (offset : Option ℚ) :
    extractCalls (plainModeRun env p offset).1 ≤ 1 := by
  unfold plainModeRun
  split
  · exact extractCalls_step _ _ _ (fun _ => by simp [okRun, extractCalls, List.countP_nil])
  · exact extractCalls_step _ _ _ (fun _ => by simp [okRun, extractCalls, List.countP_nil])
  · exact extractCalls_step _ _ _ (fun _ => by simp [okRun, extractCalls, List.countP_nil])
  · exact extractCalls_step _ _ _ (fun _ => by simp [okRun, extractCalls, List.countP_nil])
  · exact extractCalls_step _ _ _ (fun _ => by simp [okRun, extractCalls, List.countP_nil])
  · exact extractCalls_step _ _ _ (fun _ => by simp [okRun, extractCalls, List.countP_nil])
  · exact extractCalls_step _ _ _ (fun _ => by simp [okRun, extractCalls, List.countP_nil])
  · exact extractCalls_extractPlainRun env p
  · split
    · refine extractCalls_step _ _ _ (fun secs => ?_)
      have := extractCalls_logs secs sectionLogLine
      simpa using Nat.le_of_eq this |>.trans (Nat.le_succ 0)
    · simp [okRun, extractCalls, List.countP_nil]

theorem extractCalls_mainRun (env : Env) (parsed : Option ParsedOpts)
    (offset : Option ℚ) : extractCalls (mainRun env parsed offset).1 ≤ 1 := by
  unfold mainRun
  cases parsed with
  | none => simp [okRun, extractCalls, List.countP_nil]
  | some p =>
    refine extractCalls_step _ _ _ (fun paths => ?_)
    refine extractCalls_step _ _ _ (fun _ => ?_)
    split
    · exact extractCalls_jsonModeRun env p offset paths
    · exact extractCalls_plainModeRun env p offset

theorem program_events (env : Env) (parsed : Option ParsedOpts) (offset : Option ℚ) :
    (program env parsed offset).events = (mainRun env parsed offset).1 := by
  unfold program
  rcases h : mainRun env parsed offset with ⟨evs, r⟩
  cases r <;> simp

/-! ### Claim theorems -/

set_option maxRecDepth 10000 in
theorem parseSectionListArg_hex_forms :
    parseSectionListArg "0x2" = [2] ∧ parseSectionListArg "1e3" = [1000] := by
  exact ⟨by decide, by decide⟩

set_option maxRecDepth 10000 in
theorem parseSectionListArg_overflow_dropped :
    parseSectionListArg "1e309" = [] ∧ parseSectionListArg "1e-325" = [] := by
  exact ⟨by decide, by decide⟩

/-- C1, counterexample: the claim that `parseSectionListArg` yields a
strictly ascending, deduplicated list of positive integers for every input
string is false — on the input `"2,1"` the CLI produces `[2, 1]`, which is
not ascending; the parsed numbers are passed to `extractSectionsToNote` in
caller order. -/
theorem parseSectionListArg_not_sorted :
    parseSectionListArg "2,1" = [2, 1] ∧
      ¬ List.Sorted (fun a b : ℚ => a < b) (parseSectionListArg "2,1") := by
  have he : parseSectionListArg "2,1" = [2, 1] := by decide
  refine ⟨he, ?_⟩
  rw [he]
  intro h
  have h21 := (List.sorted_cons.mp h).1 1 (by simp)
  norm_num at h21

/-- C1, amended: `parseSectionListArg` yields the parsed finite numbers in
the order the caller supplied them; every element is strictly positive, but
the list is not sorted, not deduplicated, and may contain non-integer
values. -/
theorem parseSectionListArg_pos (value : String) (x : ℚ)
    (hx : x ∈ parseSectionListArg value) : 0 < x := by
  unfold parseSectionListArg at hx
  have h := List.mem_filter.mp hx
  exact of_decide_eq_true h.2

/-- Witness for C1's amended theorem at the input `"2,1"`. -/
theorem parseSectionListArg_pos_witness :
    (2 : ℚ) ∈ parseSectionListArg "2,1" ∧ (0 : ℚ) < 2 :=
  ⟨by decide, parseSectionListArg_pos "2,1" 2 (by decide)⟩

/-- C9: the two copies of `parseSectionListArg` in `main.ts` (lines 143-149
and lines 507-513) are extensionally equal — their source text is
identical, so they denote the same function on every input string. -/
theorem parseSectionListArg_copies_agree (value : String) :
    parseSectionListArg value = parseSectionListArgSecond value := rfl

/-- C6: `split` on the document `"Line A\n\n---\n\nLine B"` returns exactly
two sections, titled `"Line A"` and `"Line B"` — a trimmed line of three or
more repetitions of `-`, `*` or `_` and nothing else is a separator
boundary. -/
theorem split_separator_example :
    (split "Line A\n\n---\n\nLine B").map Section.title = ["Line A", "Line B"] ∧
      (split "Line A\n\n---\n\nLine B").length = 2 := by
  constructor
  · decide
  · decide

/-- The index-existence check of `extract` fails when some requested index
has no matching section. -/
theorem extract_invalid_index (docText : String) (indices : List Nat) (i : Nat)
    (hi : i ∈ indices) (hno : ∀ s ∈ split docText, s.index ≠ i) :
    extract docText indices = Except.error ExtractErr.invalidSectionIndex := by
  have hneg : ¬ ((indices.all
      (fun i => (split docText).any (fun s => s.index == i))) = true) := by
    intro hall
    rw [List.all_eq_true] at hall
    have h2 := hall i hi
    rw [List.any_eq_true] at h2
    obtain ⟨s, hs, heq⟩ := h2
    exact hno s hs (by simpa using heq)
  simp only [extract]
  rw [if_neg hneg]

/-- C2: requesting an index with no matching parsed section makes the whole
extraction fail with `InvalidSectionIndex` and perform zero writes: the
store-level operation returns an error instead of a write list, so neither
the source file nor the destination note is written, and the mutation is
never computed (extraction is all-or-nothing). -/
theorem extractSectionsToNote_invalid_index (source docText : String)
    (indices : List Nat) (slug : String) (i : Nat) (hi : i ∈ indices)
    (hno : ∀ s ∈ split docText, s.index ≠ i) :
    extractSectionsToNote source docText indices slug
      = Except.error ExtractErr.invalidSectionIndex := by
  unfold extractSectionsToNote
  rw [extract_invalid_index docText indices i hi hno]

/-- Witness for C2: index 5 on a three-section document. -/
theorem extractSectionsToNote_invalid_index_witness :
    (5 ∈ [5] ∧ ∀ s ∈ split "A\n\nB\n\nC", s.index ≠ 5) ∧
      extractSectionsToNote "2024-01-01" "A\n\nB\n\nC" [5] "ideas"
        = Except.error ExtractErr.invalidSectionIndex :=
  ⟨⟨by decide, by decide⟩,
    extractSectionsToNote_invalid_index "2024-01-01" "A\n\nB\n\nC" [5] "ideas" 5
      (by decide) (by decide)⟩

/-- C7: on a document with at least three sections, extracting the index set
`{2,1}` yields the same result as extracting `{1,2}` — the requested indices
act only through set membership, and resolved sections are taken in
ascending document order before concatenation, so `newNoteText` (and the
whole `ExtractionResult`) is independent of the caller's index order. -/
theorem extract_order_independent (d : String) (_h : 3 ≤ (split d).length) :
    extract d [2, 1] = extract d [1, 2] := by
  have hall : (([2, 1] : List Nat).all
        (fun i => (split d).any (fun s => s.index == i)))
      = (([1, 2] : List Nat).all
        (fun i => (split d).any (fun s => s.index == i))) := by
    cases h2 : (split d).any (fun s => s.index == 2) <;>
      cases h1 : (split d).any (fun s => s.index == 1) <;>
        simp [List.all_cons, List.all_nil, h1, h2]
  have hcont : (fun s : Section => ([2, 1] : List Nat).contains s.index)
      = (fun s : Section => ([1, 2] : List Nat).contains s.index) := by
    funext s
    cases h2 : s.index == 2 <;> cases h1 : s.index == 1 <;>
      simp [List.contains, List.elem, h1, h2]
  simp only [extract]
  rw [hall, hcont]

/-- Witness for C7 on a concrete three-section document. -/
theorem extract_order_independent_witness :
    3 ≤ (split "A\n\nB\n\nC").length ∧
      extract "A\n\nB\n\nC" [2, 1] = extract "A\n\nB\n\nC" [1, 2] :=
  ⟨by decide, extract_order_independent "A\n\nB\n\nC" (by decide)⟩

/-- C10: mode selection is the fixed priority chain
date, search, timeline, continue, extract, sections, tag, note, today: each
mode is selected exactly when its flag is truthy and every earlier flag in
the chain is not (`tag` triggering on the presence of the `--tag`/`-t`
flag); in particular, when both `--extract` and `--sections` are supplied
the invocation is an extraction, never a section listing. -/
theorem mode_priority (p : ParsedOpts) :
    (truthyB p.date = true → mode p = Mode.date) ∧
    (truthyB p.date = false → truthyB p.search = true → mode p = Mode.search) ∧
    (truthyB p.date = false → truthyB p.search = false →
      truthyB p.timeline = true → mode p = Mode.timeline) ∧
    (truthyB p.date = false → truthyB p.search = false →
      truthyB p.timeline = false → truthyB p.cont = true → mode p = Mode.cont) ∧
    (truthyB p.date = false → truthyB p.search = false →
      truthyB p.timeline = false → truthyB p.cont = false →
      truthyS p.extract = true → mode p = Mode.extract) ∧
    (truthyB p.date = false → truthyB p.search = false →
      truthyB p.timeline = false → truthyB p.cont = false →
      truthyS p.extract = false → truthyS p.sections = true →
      mode p = Mode.sections) ∧
    (truthyB p.date = false → truthyB p.search = false →
      truthyB p.timeline = false → truthyB p.cont = false →
      truthyS p.extract = false → truthyS p.sections = false →
      p.tagRequested = true → mode p = Mode.tag) ∧
    (truthyB p.date = false → truthyB p.search = false →
      truthyB p.timeline = false → truthyB p.cont = false →
      truthyS p.extract = false → truthyS p.sections = false →
      p.tagRequested = false → truthyS p.note = true → mode p = Mode.note) ∧
    (truthyB p.date = false → truthyB p.search = false →
      truthyB p.timeline = false → truthyB p.cont = false →
      truthyS p.extract = false → truthyS p.sections = false →
      p.tagRequested = false → truthyS p.note = false → mode p = Mode.today) ∧
    (truthyB p.date = false → truthyB p.search = false →
      truthyB p.timeline = false → truthyB p.cont = false →
      truthyS p.extract = true → truthyS p.sections = true →
      mode p = Mode.extract) := by
  refine ⟨?_, ?_, ?_, ?_, ?_, ?_, ?_, ?_, ?_, ?_⟩
  all_goals intros
  all_goals simp_all [mode]

/-- A parsed-option record carrying both `--extract` and `--sections`
(plus `--slug` and `--json`), as in a plugin-driven extraction. -/
def optsExtractValid : ParsedOpts :=
  { json := some true, date := none, search := none, timeline := none,
    cont := none, tag := none, note := none, extract := some "2024-01-01",
    sections := some "1,3", slug := some "ideas", tagRequested := false }

/-- Witness for C10: with both `--extract` and `--sections` supplied, the
selected mode is extraction. -/
theorem mode_priority_witness : mode optsExtractValid = Mode.extract :=
  (mode_priority optsExtractValid).2.2.2.2.2.2.2.2.2 rfl rfl rfl rfl
    (by decide) (by decide)

/-- C8: every invocation of `main` — any parsed options (or the help path)
and any offset, over any collaborator environment — invokes
`extractSectionsToNote` at most once during the process lifetime. -/
theorem main_extracts_at_most_once (env : Env) (parsed : Option ParsedOpts)
    (offset : Option ℚ) :
    extractCalls (program env parsed offset).events ≤ 1 := by
  rw [program_events]
  exact extractCalls_mainRun env parsed offset

theorem program_of_error (env : Env) (parsed : Option ParsedOpts)
    (offset : Option ℚ) (e : JError)
    (h : (mainRun env parsed offset).2 = Except.error e) :
    program env parsed offset
      = { exitCode := 1, stderr := if e.msg == "" then [] else [e.msg],
          events := (mainRun env parsed offset).1 } := by
  unfold program
  rcases hm : mainRun env parsed offset with ⟨evs, r⟩
  rw [hm] at h
  have hr : r = Except.error e := h
  subst hr
  rfl

/-- C4: whenever an operation fails, the process completes with exit code 1
and the failure's human-readable message on stderr, and no JSON has been
printed (in `--json` mode the success object is emitted only after the
operation has succeeded, so no partial JSON appears on failure). -/
theorem failure_surface (env : Env) (parsed : Option ParsedOpts)
    (offset : Option ℚ) (hwf : WellFormedEnv env) (e : JError)
    (hfail : (mainRun env parsed offset).2 = Except.error e) :
    (program env parsed offset).exitCode = 1 ∧
      (program env parsed offset).stderr = [e.msg] ∧
      jsonOuts (program env parsed offset).events = [] := by
  have hg := goodOut_mainRun env parsed offset hwf e hfail
  rw [program_of_error env parsed offset e hfail]
  refine ⟨rfl, ?_, hg.2⟩
  show (if e.msg == "" then [] else [e.msg]) = [e.msg]
  simp [hg.1]

theorem envDefault_wf : WellFormedEnv envDefault := by
  constructor <;>
    first
      | (intro e he; exact Except.noConfusion he)
      | (intro t e he; exact Except.noConfusion he)
      | (intro a b c e he; exact Except.noConfusion he)

/-- A parsed-option record requesting an extraction with a slug but without
any `--sections` value. -/
def optsNoSections : ParsedOpts :=
  { json := some true, date := none, search := none, timeline := none,
    cont := none, tag := none, note := none, extract := some "2024-01-01",
    sections := none, slug := some "ideas", tagRequested := false }

/-- Witness for C4: an extraction with no section list fails with
`"Missing extract sections."`, exit code 1 and no JSON printed. -/
theorem failure_surface_witness :
    (program envDefault (some optsNoSections) none).exitCode = 1 ∧
      (program envDefault (some optsNoSections) none).stderr
        = ["Missing extract sections."] ∧
      jsonOuts (program envDefault (some optsNoSections) none).events = [] :=
  failure_surface envDefault (some optsNoSections) none envDefault_wf
    (JError.mk "Missing extract sections.") rfl

theorem mode_extract_truthy (p : ParsedOpts) (h : mode p = Mode.extract) :
    truthyS p.extract = true := by
  unfold mode at h
  split_ifs at h
  all_goals simp_all

/-- A parsed-option record requesting an extraction with sections but no
slug. -/
def optsNoSlug : ParsedOpts :=
  { json := none, date := none, search := none, timeline := none,
    cont := none, tag := none, note := none, extract := some "2024-01-01",
    sections := some "1", slug := none, tagRequested := false }

/-- C3, counterexample: with a missing slug the extract invocation does not
report any validation failure — `main` returns silently, the process exits
with code 0, prints nothing to stderr and performs no extraction, whereas
the claim requires an error to reach the boundary. -/
theorem extract_missing_slug_silent :
    (program envDefault (some optsNoSlug) none).exitCode = 0 ∧
      (program envDefault (some optsNoSlug) none).stderr = [] ∧
      extractCalls (program envDefault (some optsNoSlug) none).events = 0 :=
  ⟨rfl, rfl, rfl⟩

/-- C3, amended: in extract mode, an empty or missing slug makes the program
return silently — success, no output, no extraction invoked, nothing
written; only an empty section list (no valid section indices, with a
truthy slug) is reported as the failure `"Missing extract sections."`, again
with no extraction invoked and nothing written. -/
theorem extract_validation (env : Env) (p : ParsedOpts) (offset : Option ℚ)
    (paths : Paths) (hpaths : env.getJournalPaths = Except.ok paths)
    (hmk : env.makeDirectory = Except.ok ())
    (hmode : mode p = Mode.extract) :
    (truthyS p.slug = false →
      mainRun env (some p) offset
        = ([Event.invokeAction "getJournalPaths", Event.invokeAction "makeDirectory"],
           Except.ok ())) ∧
    (truthyS p.slug = true → parseSectionListArg (p.sections.getD "") = [] →
      mainRun env (some p) offset
        = ([Event.invokeAction "getJournalPaths", Event.invokeAction "makeDirectory"],
           Except.error (JError.mk "Missing extract sections."))) := by
  have hex := mode_extract_truthy p hmode
  constructor
  · intro hslug
    cases hj : truthyB p.json <;>
      simp [mainRun, step, hpaths, hmk, hj, jsonModeRun, plainModeRun, hmode,
            extractJsonRun, extractPlainRun, hslug, okRun]
  · intro hslug hempty
    cases hj : truthyB p.json <;>
      cases hs : truthyS p.sections <;>
        simp [mainRun, step, hpaths, hmk, hj, hs, jsonModeRun, plainModeRun,
              hmode, extractJsonRun, extractPlainRun, hslug, hex, hempty,
              okRun, failRun]

/-- Witness for C3's amended theorem: slug present, `--sections` absent. -/
theorem extract_validation_witness :
    mainRun envDefault (some optsNoSections) none
      = ([Event.invokeAction "getJournalPaths", Event.invokeAction "makeDirectory"],
         Except.error (JError.mk "Missing extract sections.")) :=
  (extract_validation envDefault optsNoSections none
      (Paths.mk "journal" "journal/notes") rfl rfl rfl).2 rfl rfl

/-- C5: every successful extraction in `--json` mode prints exactly the JSON
object `{status: "ok", source, sections, slug}`, where `source` and `slug`
echo the request and `sections` is the parsed index list. -/
theorem json_extract_success (env : Env) (p : ParsedOpts) (offset : Option ℚ)
    (paths : Paths) (hpaths : env.getJournalPaths = Except.ok paths)
    (hmk : env.makeDirectory = Except.ok ())
    (hjson : truthyB p.json = true)
    (hmode : mode p = Mode.extract)
    (hslug : truthyS p.slug = true)
    (secStr : String) (hsec : p.sections = some secStr)
    (hlist : parseSectionListArg secStr ≠ [])
    (hact : env.extractSectionsToNoteAct (p.extract.getD "")
      (parseSectionListArg secStr) (p.slug.getD "") = Except.ok ()) :
    jsonOuts (mainRun env (some p) offset).1
      = [Event.jsonOut (extractOkObj (p.extract.getD "")
          (parseSectionListArg secStr) (p.slug.getD ""))] ∧
      (mainRun env (some p) offset).2 = Except.ok () := by
  have hex := mode_extract_truthy p hmode
  have hsecne : secStr ≠ "" := by
    intro h0
    apply hlist
    rw [h0]
    rfl
  have hsecT : truthyS (some secStr) = true := by
    simp [truthyS, hsecne]
  have hlen : 0 < (parseSectionListArg secStr).length := List.length_pos.mpr hlist
  simp only [mainRun, step, hpaths, hmk, hjson, jsonModeRun, hmode,
    extractJsonRun, hex, hslug, hsecT, hsec, stepExtract, hlen, outJ,
    Bool.and_self, Bool.not_true, Bool.false_eq_true, if_false, if_true,
    Option.getD_some]
  rw [hact]
  simp [jsonOuts, List.filter, isJsonOut]

/-- Witness for C5 at a concrete request. -/
theorem json_extract_success_witness :
    jsonOuts (mainRun envDefault (some optsExtractValid) none).1
      = [Event.jsonOut (extractOkObj "2024-01-01" (parseSectionListArg "1,3") "ideas")] ∧
      (mainRun envDefault (some optsExtractValid) none).2 = Except.ok () :=
  json_extract_success envDefault optsExtractValid none
    (Paths.mk "journal" "journal/notes") rfl rfl rfl rfl rfl "1,3" rfl
    (by decide) rfl

end J
